import Mathlib

/-!
Shallow embedding of the notes dashboard of the simple-note-taker
repository: the query pipeline of `NotesPage`
(`src/app/dashboard/notes/page.tsx`), the helpers of the toolbar
(`src/components/notes/notes-toolbar.client.tsx`) and the
page-number generator of the pagination widget.

Modelling conventions: JavaScript numbers that may be `NaN` are
modelled as `Option Int` with `none` standing for `NaN`; `Date`
values are modelled by their `getTime()` epoch milliseconds as `Int`;
JavaScript strings by Lean `String` (code points in place of UTF-16
units, which agree on the basic plane); the exact `Math` operations on
integers are modelled by exact integer/rational arithmetic.
-/

/-- A note record as used by the dashboard page; `updatedAt` is the
value of `updatedAt.getTime()` in milliseconds. -/
structure Note where
  id : String
  title : String
  content : String
  categoryId : Option String
  isPinned : Bool
  isArchived : Bool
  updatedAt : Int
deriving DecidableEq, Repr

/-- The raw `searchParams` record accepted by `NotesPage`; a
query-string entry that is absent is `none`. -/
structure SearchParams where
  q : Option String := none
  category : Option String := none
  page : Option String := none
  pageSize : Option String := none
  includeArchived : Option String := none
deriving DecidableEq, Repr

/-- Whitespace characters recognised by the JavaScript string
functions (the common cases). -/
def isJsWhitespace (c : Char) : Bool :=
  c == ' ' || c == '\t' || c == '\n' || c == '\r' || c == '\x0b' || c == '\x0c'

/-- Value of a hexadecimal digit character, if it is one. -/
def hexDigitVal (c : Char) : Option Nat :=
  if '0' ≤ c ∧ c ≤ '9' then some (c.toNat - '0'.toNat)
  else if 'a' ≤ c ∧ c ≤ 'f' then some (c.toNat - 'a'.toNat + 10)
  else if 'A' ≤ c ∧ c ≤ 'F' then some (c.toNat - 'A'.toNat + 10)
  else none

/-- Value of a digit character in the given radix, if it is one. -/
def digitVal (radix : Nat) (c : Char) : Option Nat :=
  match hexDigitVal c with
  | some v => if v < radix then some v else none
  | none => none

/-- Model of the JavaScript global `parseInt(s)` with no radix
argument: skip leading whitespace, read an optional sign, detect a
`0x`/`0X` hexadecimal marker, then take the longest run of digits of
the selected radix; when that run is empty the result is `NaN`,
modelled as `none`. -/
def parseIntJS (s : String) : Option Int :=
  let cs0 := s.data.dropWhile isJsWhitespace
  let signAndRest : Int × List Char :=
    match cs0 with
    | '-' :: rest => (-1, rest)
    | '+' :: rest => (1, rest)
    | _ => (1, cs0)
  let radixAndRest : Nat × List Char :=
    match signAndRest.2 with
    | '0' :: 'x' :: rest => (16, rest)
    | '0' :: 'X' :: rest => (16, rest)
    | _ => (10, signAndRest.2)
  let digits := radixAndRest.2.takeWhile (fun c => (digitVal radixAndRest.1 c).isSome)
  if digits.isEmpty then none
  else
    some (signAndRest.1 *
      (digits.foldl (fun acc c => acc * radixAndRest.1 + (digitVal radixAndRest.1 c).getD 0)
        (0 : Nat) : Nat))

/-- JavaScript `raw || dflt` on an optional string: an absent value and
the empty string are falsy. -/
def jsOrString (raw : Option String) (dflt : String) : String :=
  match raw with
  | none => dflt
  | some s => if s = "" then dflt else s

/-- JavaScript `Math.max` against an integer constant when the other
argument may be `NaN` (`NaN` propagates). -/
def nanMax (a : Option Int) (b : Int) : Option Int := a.map (fun x => max x b)

/-- JavaScript `Math.min` against an integer constant when the other
argument may be `NaN` (`NaN` propagates). -/
def nanMin (a : Option Int) (b : Int) : Option Int := a.map (fun x => min x b)

/-- Subtraction of a constant from a possibly-`NaN` number. -/
def nanSub (a : Option Int) (b : Int) : Option Int := a.map (fun x => x - b)

/-- Addition of two possibly-`NaN` numbers. -/
def nanAdd (a b : Option Int) : Option Int :=
  match a, b with
  | some x, some y => some (x + y)
  | _, _ => none

/-- Multiplication of two possibly-`NaN` numbers. -/
def nanMul (a b : Option Int) : Option Int :=
  match a, b with
  | some x, some y => some (x * y)
  | _, _ => none

/-- Line 84 of `page.tsx`: `Math.max(parseInt(searchParams.page || "1"), 1)`. -/
def normalizePage (raw : Option String) : Option Int :=
  nanMax (parseIntJS (jsOrString raw "1")) 1

/-- Lines 85 to 88 of `page.tsx`:
`Math.min(Math.max(parseInt(searchParams.pageSize || "20"), 5), 100)`. -/
def normalizePageSize (raw : Option String) : Option Int :=
  nanMin (nanMax (parseIntJS (jsOrString raw "20")) 5) 100

/-- Line 82 of `page.tsx`: `searchParams.q || ""`. -/
def searchQueryOf (raw : Option String) : String := jsOrString raw ""

/-- Line 83 of `page.tsx`: `searchParams.category || null`. -/
def categoryIdOf (raw : Option String) : Option String :=
  match raw with
  | none => none
  | some s => if s = "" then none else some s

/-- Line 89 of `page.tsx`: `searchParams.includeArchived === "true"`. -/
def includeArchivedOf (raw : Option String) : Bool := raw == some "true"

/-- JavaScript `String.prototype.toLowerCase`, restricted to the ASCII
case mapping provided by `Char.toLower`. -/
def toLowerJS (s : String) : String := ⟨s.data.map Char.toLower⟩

/-- Worker for `jsIncludes`: does `sub` occur contiguously in the
haystack? -/
def jsIncludesAux (sub : List Char) : List Char → Bool
  | [] => sub.isEmpty
  | c :: rest => sub.isPrefixOf (c :: rest) || jsIncludesAux sub rest

/-- JavaScript `s.includes(sub)`: `sub` occurs contiguously in `s`
(the empty string occurs in every string). -/
def jsIncludes (s sub : String) : Bool := jsIncludesAux sub.data s.data

/-- The guard `categoryId && note.categoryId !== categoryId` of line
98 of `page.tsx`: a truthy (non-`null`) category filter that the note
does not match. -/
def categoryExcludes (categoryId : Option String) (note : Note) : Bool :=
  match categoryId with
  | some c => note.categoryId != some c
  | none => false

/-- The filter callback of `NotesPage` (lines 96 to 107 of
`page.tsx`): archived notes are dropped unless `includeArchived`; a
truthy (non-`null`) `categoryId` must equal the note's `categoryId`;
when the raw search query has length at least 2 the note must contain
its lowercasing in the lowercased title or content. -/
def noteMatchesFilter (includeArchived : Bool) (categoryId : Option String)
    (searchQuery : String) (note : Note) : Bool :=
  if !includeArchived && note.isArchived then false
  else if categoryExcludes categoryId note then false
  else if 2 ≤ searchQuery.length then
    jsIncludes (toLowerJS note.title) (toLowerJS searchQuery) ||
      jsIncludes (toLowerJS note.content) (toLowerJS searchQuery)
  else true

/-- The filtering stage of `NotesPage`, with the raw search params
already threaded through the parsing of lines 82 to 89. -/
def filteredNotes (sp : SearchParams) (allNotes : List Note) : List Note :=
  allNotes.filter
    (noteMatchesFilter (includeArchivedOf sp.includeArchived)
      (categoryIdOf sp.category) (searchQueryOf sp.q))

/-- The sort comparator of lines 110 to 114 of `page.tsx`, phrased as
a Boolean "compares less-or-equal": `noteLe a b` holds exactly when
the comparator returns a non-positive number on `(a, b)`: either `a`
is pinned and `b` is not, or both have the same pinned flag and
`b.updatedAt - a.updatedAt` is non-positive. -/
def noteLe (a b : Note) : Bool :=
  (a.isPinned && !b.isPinned) ||
    ((a.isPinned == b.isPinned) && decide (b.updatedAt ≤ a.updatedAt))

/-- The sorting stage (`filteredNotes.sort(...)`): a stable sort of
the list by the comparator, modelled by insertion sort with respect to
`noteLe`. -/
def sortNotes (l : List Note) : List Note :=
  List.insertionSort (fun a b => noteLe a b = true) l

/-- One bound of `Array.prototype.slice`: `NaN` becomes 0, a negative
index counts from the end, and the result is clamped into
`[0, len]`. -/
def jsSliceIndex (len : Int) (i : Option Int) : Nat :=
  match i with
  | none => 0
  | some v => if v < 0 then (max (len + v) 0).toNat else (min v len).toNat

/-- JavaScript `l.slice(s, e)` on an array of length `l.length`, with
possibly-`NaN` bounds. -/
def jsSlice (l : List α) (s e : Option Int) : List α :=
  (l.take (jsSliceIndex l.length e)).drop (jsSliceIndex l.length s)

/-- Line 118 of `page.tsx`: `Math.max(Math.ceil(total / pageSize), 1)`
with a possibly-`NaN` page size (the division and ceiling are exact
here, modelled over the rationals). -/
def pageCountJS (total : Nat) (pageSize : Option Int) : Option Int :=
  pageSize.map (fun p => max ⌈(total : ℚ) / (p : ℚ)⌉ 1)

/-- The result of the notes page query pipeline: the paginated items,
the total after filtering, and the page count (possibly `NaN`). -/
structure ListResult where
  items : List Note
  total : Nat
  pageCount : Option Int
deriving Repr

/-- The data pipeline of `NotesPage` (`page.tsx`): parse and normalize
the search params (lines 82 to 89), filter (96 to 107), sort (110 to
114), count and paginate (117 to 120). -/
def notesPage (sp : SearchParams) (allNotes : List Note) : ListResult :=
  let page := normalizePage sp.page
  let pageSize := normalizePageSize sp.pageSize
  let sorted := sortNotes (filteredNotes sp allNotes)
  let total := sorted.length
  let startIndex := nanMul (nanSub page 1) pageSize
  { items := jsSlice sorted startIndex (nanAdd startIndex pageSize)
    total := total
    pageCount := pageCountJS total pageSize }

/-- The color palette of `getCategoryColor` (identical in the toolbar
and in the note card). -/
def colorMap : List (String × String) :=
  [("blue", "#3b82f6"), ("green", "#10b981"), ("purple", "#8b5cf6"),
   ("red", "#ef4444"), ("yellow", "#eab308"), ("orange", "#f97316"),
   ("pink", "#ec4899"), ("indigo", "#6366f1"), ("slate", "#64748b"),
   ("gray", "#6b7280")]

/-- A JavaScript value that the property access `colorMap[colorName]`
can produce at runtime: one of the palette strings, a function or
object inherited from `Object.prototype`, or `undefined`. -/
inductive JsValue where
  | str (s : String)
  | inherited (name : String)
  | undefined
deriving DecidableEq, Repr

/-- Property names an object literal inherits from `Object.prototype`:
looking these up on `colorMap` yields the inherited (truthy) function
or object, not `undefined`. -/
def objectPrototypeProps : List String :=
  ["constructor", "hasOwnProperty", "isPrototypeOf", "propertyIsEnumerable",
   "toLocaleString", "toString", "valueOf", "__proto__",
   "__defineGetter__", "__defineSetter__", "__lookupGetter__", "__lookupSetter__"]

/-- JavaScript property access `colorMap[colorName]` on the object
literal, prototype chain included: an own property yields its string
value; a property inherited from `Object.prototype` yields the
inherited function or object; any other name yields `undefined`. -/
def colorMapGet (colorName : String) : JsValue :=
  match colorMap.lookup colorName with
  | some v => JsValue.str v
  | none =>
    if colorName ∈ objectPrototypeProps then JsValue.inherited colorName
    else JsValue.undefined

/-- JavaScript truthiness of such a value: `undefined` and the empty
string are falsy, every other string and every function or object is
truthy. -/
def JsValue.truthy : JsValue → Bool
  | .str s => s != ""
  | .inherited _ => true
  | .undefined => false

/-- Lines 23 to 37 of the toolbar: `colorMap[colorName] || colorMap.slate`,
where the property access follows the prototype chain and `||` keeps a
truthy left operand. -/
def getCategoryColor (colorName : String) : JsValue :=
  if (colorMapGet colorName).truthy then colorMapGet colorName
  else colorMapGet "slate"

/-- JavaScript `String.prototype.trim` (common whitespace at both
ends). -/
def jsTrim (s : String) : String :=
  ⟨((s.data.dropWhile isJsWhitespace).reverse.dropWhile isJsWhitespace).reverse⟩

/-- The `handleCategoryChange` handler of the toolbar: choosing the
literal value "all" clears the category selection (which in turn
removes the `category` URL parameter in `updateURL`). -/
def handleCategoryChange (value : String) : Option String :=
  if value = "all" then none else some value

/-- The `q` parameter produced by the toolbar's `updateURL`: set to
the trimmed search text when the trimmed length is at least 2,
removed otherwise. -/
def toolbarQParam (search : String) : Option String :=
  if 2 ≤ (jsTrim search).length then some (jsTrim search) else none

/-- An entry of the list produced by `getPageNumbers` in the
pagination widget: a page number or an ellipsis marker. -/
inductive PageItem where
  | page (n : Nat)
  | ellipsis
deriving DecidableEq, Repr

/-- The inclusive range `[a, b]` as a list, the shape of the
`for (let i = a; i <= b; i++)` loops. -/
def rangeIncl (a b : Nat) : List Nat := List.range' a (b + 1 - a)

/-- The `getPageNumbers` closure of the pagination widget
(`src/unnamed/part_001`, lines 42 to 80): all pages when there are at
most `maxVisible = 5`, and otherwise the first page, an optional
ellipsis, a window around the current page, an optional ellipsis, and
the last page. The page numbers in play are positive, so natural
numbers model the JavaScript arithmetic faithfully. -/
def getPageNumbers (currentPage pageCount : Nat) : List PageItem :=
  if pageCount ≤ 5 then
    (rangeIncl 1 pageCount).map PageItem.page
  else
    [PageItem.page 1]
      ++ (if 3 < currentPage then [PageItem.ellipsis] else [])
      ++ ((rangeIncl (max 2 (currentPage - 1)) (min (pageCount - 1) (currentPage + 1))).filter
            (fun i => i != 1 && i != pageCount)).map PageItem.page
      ++ (if currentPage < pageCount - 2 then [PageItem.ellipsis] else [])
      ++ (if 1 < pageCount then [PageItem.page pageCount] else [])

/-- The numeric entries of a `getPageNumbers` result, in order. -/
def pageNums (l : List PageItem) : List Nat :=
  l.filterMap (fun it => match it with | .page n => some n | .ellipsis => none)

/-- A plain unpinned, unarchived, uncategorised note used to
instantiate theorems at concrete inputs. -/
def sampleNote : Note :=
  { id := "1", title := "x", content := "y", categoryId := none,
    isPinned := false, isArchived := false, updatedAt := 0 }

/-- An archived variant of the sample note. -/
def archivedNote : Note :=
  { id := "2", title := "z", content := "w", categoryId := none,
    isPinned := false, isArchived := true, updatedAt := 0 }

/-! ### Helper lemmas about the embedded definitions -/

theorem jsTrim_length_le (s : String) : (jsTrim s).length ≤ s.length := by
  show (((s.data.dropWhile isJsWhitespace).reverse.dropWhile
      isJsWhitespace).reverse).length ≤ s.data.length
  rw [List.length_reverse]
  calc ((s.data.dropWhile isJsWhitespace).reverse.dropWhile isJsWhitespace).length
      ≤ (s.data.dropWhile isJsWhitespace).reverse.length :=
        (List.dropWhile_sublist _).length_le
    _ = (s.data.dropWhile isJsWhitespace).length := List.length_reverse _
    _ ≤ s.data.length := (List.dropWhile_sublist _).length_le

theorem jsIncludesAux_eq_true (sub : List Char) :
    ∀ hay : List Char, jsIncludesAux sub hay = true ↔ sub <:+: hay
  | [] => by
    simp [jsIncludesAux, List.isEmpty_iff]
  | c :: rest => by
    rw [jsIncludesAux, Bool.or_eq_true, jsIncludesAux_eq_true sub rest]
    constructor
    · rintro (hp | hi)
      · rcases (by simpa using hp : sub <+: c :: rest) with ⟨t, ht⟩
        exact ⟨[], t, by simpa using ht⟩
      · rcases hi with ⟨s, t, hst⟩
        exact ⟨c :: s, t, by simp [hst]⟩
    · rintro ⟨s, t, hst⟩
      cases s with
      | nil =>
        left
        have hpre : sub <+: c :: rest := ⟨t, by simpa using hst⟩
        simpa using hpre
      | cons a s =>
        right
        simp only [List.cons_append] at hst
        injection hst with h1 h2
        exact ⟨s, t, h2⟩

/-- JavaScript string inclusion is contiguous-sublist membership. -/
theorem jsIncludes_eq_true (s sub : String) :
    jsIncludes s sub = true ↔ sub.data <:+: s.data :=
  jsIncludesAux_eq_true sub.data s.data

/-- Characterisation of a successful run through the filter callback. -/
theorem noteMatchesFilter_eq_true (ia : Bool) (cid : Option String)
    (q : String) (n : Note) :
    noteMatchesFilter ia cid q n = true ↔
      (!ia && n.isArchived) = false ∧
      categoryExcludes cid n = false ∧
      (2 ≤ q.length →
        (jsIncludes (toLowerJS n.title) (toLowerJS q) ||
          jsIncludes (toLowerJS n.content) (toLowerJS q)) = true) := by
  unfold noteMatchesFilter
  cases h1 : (!ia && n.isArchived)
  · cases h2 : categoryExcludes cid n
    · by_cases h3 : 2 ≤ q.length <;> simp [h3]
    · simp
  · simp

theorem normalizePage_pos {raw : Option String} {p : Int}
    (h : normalizePage raw = some p) : 1 ≤ p := by
  unfold normalizePage nanMax at h
  cases hv : parseIntJS (jsOrString raw "1") <;> rw [hv] at h <;> simp at h
  omega

theorem normalizePageSize_bounds {raw : Option String} {p : Int}
    (h : normalizePageSize raw = some p) : 5 ≤ p ∧ p ≤ 100 := by
  unfold normalizePageSize nanMin nanMax at h
  cases hv : parseIntJS (jsOrString raw "20") <;> rw [hv] at h <;> simp at h
  omega

theorem jsSlice_sublist (l : List α) (s e : Option Int) :
    List.Sublist (jsSlice l s e) l :=
  (List.drop_sublist _ _).trans (List.take_sublist _ _)

instance noteLe_total : IsTotal Note (fun a b => noteLe a b = true) := by
  constructor
  intro a b
  unfold noteLe
  cases ha : a.isPinned <;> cases hb : b.isPinned <;> simp [ha, hb] <;> omega

instance noteLe_trans : IsTrans Note (fun a b => noteLe a b = true) := by
  constructor
  intro a b c
  unfold noteLe
  cases ha : a.isPinned <;> cases hb : b.isPinned <;> cases hc : c.isPinned <;>
    simp [ha, hb, hc] <;> omega

theorem sortNotes_pairwise (l : List Note) :
    (sortNotes l).Pairwise (fun a b => noteLe a b = true) :=
  List.sorted_insertionSort _ l

theorem sortNotes_perm (l : List Note) : List.Perm (sortNotes l) l :=
  List.perm_insertionSort _ l

theorem notesPage_items (sp : SearchParams) (notes : List Note) :
    (notesPage sp notes).items =
      jsSlice (sortNotes (filteredNotes sp notes))
        (nanMul (nanSub (normalizePage sp.page) 1) (normalizePageSize sp.pageSize))
        (nanAdd (nanMul (nanSub (normalizePage sp.page) 1) (normalizePageSize sp.pageSize))
          (normalizePageSize sp.pageSize)) := rfl

theorem notesPage_total (sp : SearchParams) (notes : List Note) :
    (notesPage sp notes).total = (sortNotes (filteredNotes sp notes)).length := rfl

theorem notesPage_pageCount (sp : SearchParams) (notes : List Note) :
    (notesPage sp notes).pageCount =
      pageCountJS (notesPage sp notes).total (normalizePageSize sp.pageSize) := rfl

theorem mem_items_mem_filtered {sp : SearchParams} {notes : List Note} {n : Note}
    (h : n ∈ (notesPage sp notes).items) : n ∈ filteredNotes sp notes :=
  (sortNotes_perm _).subset ((jsSlice_sublist _ _ _).subset h)

theorem mem_rangeIncl {m a b : Nat} : m ∈ rangeIncl a b ↔ a ≤ m ∧ m ≤ b := by
  unfold rangeIncl
  rw [List.mem_range']
  constructor
  · rintro ⟨i, hi, rfl⟩
    omega
  · rintro ⟨h1, h2⟩
    exact ⟨m - a, by omega, by omega⟩

theorem pairwise_lt_rangeIncl (a b : Nat) :
    (rangeIncl a b).Pairwise (· < ·) :=
  List.pairwise_lt_range' a (b + 1 - a)

theorem pageNums_map_page (l : List Nat) :
    pageNums (l.map PageItem.page) = l := by
  unfold pageNums
  induction l with
  | nil => rfl
  | cons x xs ih => simp [ih]

theorem pageNums_append (l₁ l₂ : List PageItem) :
    pageNums (l₁ ++ l₂) = pageNums l₁ ++ pageNums l₂ :=
  List.filterMap_append _ _ _

theorem pageNums_nil : pageNums [] = [] := rfl

theorem pageNums_ellipsis : pageNums [PageItem.ellipsis] = [] := rfl

theorem pageNums_single (n : Nat) : pageNums [PageItem.page n] = [n] := rfl

/-- For a nonnegative numerator and a positive denominator, the exact
ceiling of the rational quotient is the rounded-up integer division. -/
theorem ceil_natCast_div (t q : Nat) (hq : 1 ≤ q) :
    ⌈(t : ℚ) / (q : ℚ)⌉ = ((t + q - 1) / q : ℕ) := by
  have hq0 : (0 : ℚ) < q := by exact_mod_cast hq
  have hkey := Nat.div_add_mod (t + q - 1) q
  have hr : (t + q - 1) % q < q := Nat.mod_lt _ (by omega)
  set z := (t + q - 1) / q with hz
  set r := (t + q - 1) % q with hrr
  have hkeyQ : (q : ℚ) * z + r = t + q - 1 := by
    have : ((q * z + r : ℕ) : ℚ) = ((t + q - 1 : ℕ) : ℚ) := by exact_mod_cast congrArg Nat.cast hkey
    push_cast at this
    rw [Nat.cast_sub (by omega)] at this
    push_cast at this
    linarith [this]
  have hrQ : (r : ℚ) < q := by exact_mod_cast hr
  have hr0 : (0 : ℚ) ≤ r := by positivity
  rw [Int.ceil_eq_iff]
  constructor
  · rw [lt_div_iff₀ hq0]
    push_cast
    have hc : ((z : ℚ) - 1) * q = q * z - q := by ring
    linarith [hkeyQ, hrQ, hr0, hc]
  · rw [div_le_iff₀ hq0]
    push_cast
    have hc : (z : ℚ) * q = q * z := by ring
    have hr1 : (r : ℚ) + 1 ≤ q := by
      have : r + 1 ≤ q := hr
      exact_mod_cast this
    linarith [hkeyQ, hr1, hr0, hc]

/-! ### Claim theorems -/

/-- C1: in every listing result, pinned notes strictly precede
unpinned notes regardless of recency, and within the pinned group and
within the unpinned group notes are ordered by `updatedAt`
descending: every earlier item of `(notesPage sp notes).items` is
pinned whenever a later one is, and among items with equal pinned
flag the earlier one has the larger-or-equal `updatedAt`. -/
theorem listing_pinned_precede_and_recent_first (sp : SearchParams) (notes : List Note) :
    (notesPage sp notes).items.Pairwise
      (fun a b => (b.isPinned = true → a.isPinned = true) ∧
        (a.isPinned = b.isPinned → b.updatedAt ≤ a.updatedAt)) := by
  have hs := sortNotes_pairwise (filteredNotes sp notes)
  have himp : ∀ a b : Note, noteLe a b = true →
      (b.isPinned = true → a.isPinned = true) ∧
        (a.isPinned = b.isPinned → b.updatedAt ≤ a.updatedAt) := by
    intro a b h
    unfold noteLe at h
    cases ha : a.isPinned <;> cases hb : b.isPinned <;>
      simp [ha, hb] at h ⊢ <;> omega
  rw [notesPage_items]
  exact List.Pairwise.sublist (jsSlice_sublist _ _ _)
    (hs.imp (fun h => himp _ _ h))

/-- C2 (code evaluation at the failing input): a non-numeric `page` or
`pageSize` parameter makes `parseInt` return `NaN` and `Math.max` /
`Math.min` propagate it, so the normalization produces `NaN` (modelled
as `none`) instead of the value the specification requires. -/
theorem parseInt_nonNumeric_yields_nan :
    normalizePage (some "abc") = none ∧ normalizePageSize (some "abc") = none := by
  constructor <;> decide

/-- C6: when the `includeArchived` parameter is anything other than
the literal string "true" (in particular when it is absent), every
note with `isArchived = true` is excluded from the listing result. -/
theorem archived_excluded_by_default (sp : SearchParams) (notes : List Note)
    (h : sp.includeArchived ≠ some "true") :
    ∀ n ∈ (notesPage sp notes).items, n.isArchived = false := by
  intro n hn
  have hf := List.of_mem_filter (mem_items_mem_filtered hn)
  have hia : includeArchivedOf sp.includeArchived = false := by
    unfold includeArchivedOf
    simp [h]
  rcases (noteMatchesFilter_eq_true _ _ _ _).mp hf with ⟨h1, -, -⟩
  rw [hia] at h1
  simpa using h1

/-- C6 witness: with `includeArchived = "1"` the archived sample note
is excluded. -/
theorem archived_excluded_by_default_witness :
    (({ includeArchived := some "1" } : SearchParams).includeArchived ≠ some "true") ∧
    (∀ n ∈ (notesPage { includeArchived := some "1" } [sampleNote, archivedNote]).items,
      n.isArchived = false) :=
  ⟨by decide, archived_excluded_by_default _ _ (by decide)⟩

/-- C8: a page whose offset `(page - 1) * pageSize` is at least the
total number of matching notes yields an empty items list, not a
failure. -/
theorem page_beyond_total_empty (sp : SearchParams) (notes : List Note) (p ps : Int)
    (hp : normalizePage sp.page = some p) (hps : normalizePageSize sp.pageSize = some ps)
    (h : ((notesPage sp notes).total : Int) ≤ (p - 1) * ps) :
    (notesPage sp notes).items = [] := by
  have hitems : (notesPage sp notes).items =
      jsSlice (sortNotes (filteredNotes sp notes)) (some ((p - 1) * ps))
        (some ((p - 1) * ps + ps)) := by
    rw [notesPage_items, hp, hps]
    rfl
  have hlen : ((sortNotes (filteredNotes sp notes)).length : Int) ≤ (p - 1) * ps := by
    rw [← notesPage_total]
    exact h
  rw [hitems]
  simp only [jsSlice, jsSliceIndex]
  rw [if_neg (by omega : ¬ (p - 1) * ps < 0)]
  rw [min_eq_right hlen, Int.toNat_natCast]
  exact List.drop_eq_nil_of_le ((List.take_sublist _ _).length_le)

/-- C8 witness: page 5 of a one-note listing with the default page
size is empty. -/
theorem page_beyond_total_empty_witness :
    (normalizePage (some "5") = some 5 ∧ normalizePageSize none = some 20 ∧
      ((notesPage { page := some "5" } [sampleNote]).total : Int) ≤ (5 - 1) * 20) ∧
    (notesPage { page := some "5" } [sampleNote]).items = [] :=
  ⟨⟨by decide, by decide, by decide⟩,
    page_beyond_total_empty _ _ 5 20 (by decide) (by decide) (by decide)⟩

/-- C3 counterexample: the query "a " has raw length 2 but trimmed
length 1, so the claim requires the listing to equal the unqueried
listing; the query layer does not trim and applies the search
predicate with the raw string, which excludes the sample note. -/
theorem short_query_trim_cex :
    (jsTrim (searchQueryOf (some "a "))).length < 2 ∧
    (notesPage { q := some "a " } [sampleNote]).items ≠
      (notesPage { q := none } [sampleNote]).items := by
  constructor
  · decide
  · decide

/-- C3 (amended): the query layer does not trim `q`; the search
predicate is dropped exactly when the raw length of `q` is below 2,
and then the listing is identical to a listing with no `q` at all
(the toolbar, for its part, writes only trimmed queries of length at
least 2 into the URL). -/
theorem raw_short_query_dropped (sp : SearchParams) (notes : List Note)
    (h : (searchQueryOf sp.q).length < 2) :
    notesPage sp notes =
      notesPage ⟨none, sp.category, sp.page, sp.pageSize, sp.includeArchived⟩ notes := by
  obtain ⟨q, c, p, ps, ia⟩ := sp
  replace h : (searchQueryOf q).length < 2 := h
  have hpred : noteMatchesFilter (includeArchivedOf ia) (categoryIdOf c) (searchQueryOf q)
      = noteMatchesFilter (includeArchivedOf ia) (categoryIdOf c) (searchQueryOf none) := by
    funext n
    unfold noteMatchesFilter
    rw [if_neg (by omega : ¬ 2 ≤ (searchQueryOf q).length),
      if_neg (by decide : ¬ 2 ≤ (searchQueryOf none).length)]
  simp only [notesPage, filteredNotes]
  rw [hpred]

/-- C3 witness: a one-letter query behaves as no query. -/
theorem raw_short_query_dropped_witness :
    (searchQueryOf (some "a")).length < 2 ∧
    notesPage ⟨some "a", none, none, none, none⟩ [sampleNote] =
      notesPage ⟨none, none, none, none, none⟩ [sampleNote] :=
  ⟨by decide,
    raw_short_query_dropped ⟨some "a", none, none, none, none⟩ [sampleNote] (by decide)⟩

/-- C4 counterexample: with the category parameter set to the literal
string "all", the query layer filters by the identifier "all" and so
drops the sample note, while the parameter-absent listing keeps it. -/
theorem category_all_filters_cex :
    (notesPage { category := some "all" } [sampleNote]).items ≠
      (notesPage { category := none } [sampleNote]).items := by
  decide

/-- C4 (amended): the unfiltered behaviour belongs to an absent or
empty category parameter, and the toolbar turns the "all" choice into
removing the parameter; at the query layer the literal string "all"
is an ordinary identifier: every listed note then has `categoryId`
exactly "all". -/
theorem category_filter_amended :
    handleCategoryChange "all" = none ∧
    (∀ (sp : SearchParams) (notes : List Note), sp.category = some "" →
      notesPage sp notes =
        notesPage ⟨sp.q, none, sp.page, sp.pageSize, sp.includeArchived⟩ notes) ∧
    (∀ (sp : SearchParams) (notes : List Note) (n : Note), sp.category = some "all" →
      n ∈ (notesPage sp notes).items → n.categoryId = some "all") := by
  refine ⟨rfl, ?_, ?_⟩
  · intro sp notes hc
    obtain ⟨q, c, p, ps, ia⟩ := sp
    cases hc
    rfl
  · intro sp notes n hc hn
    have hf := List.of_mem_filter (mem_items_mem_filtered hn)
    rcases (noteMatchesFilter_eq_true _ _ _ _).mp hf with ⟨-, h2, -⟩
    rw [hc] at h2
    simpa [categoryIdOf, categoryExcludes] using h2

/-- C4 witness: an empty category parameter is unfiltered, applied to
the sample listing. -/
theorem category_filter_amended_witness :
    notesPage ⟨none, some "", none, none, none⟩ [sampleNote] =
      notesPage ⟨none, none, none, none, none⟩ [sampleNote] :=
  category_filter_amended.2.1 ⟨none, some "", none, none, none⟩ [sampleNote] rfl

/-- C5: for every note list and normalized page size, the reported
page count is the ceiling of `total / pageSize` floored at 1 (with
the ceiling expressed as rounded-up natural division); in particular
it is 1 when the total is 0. -/
theorem pageCount_formula (sp : SearchParams) (notes : List Note) (p : Int)
    (hp : normalizePageSize sp.pageSize = some p) :
    ((notesPage sp notes).pageCount =
      some (((max ((notesPage sp notes).total ⌈/⌉ p.toNat) 1 : ℕ) : ℤ))) ∧
    ((notesPage sp notes).total = 0 → (notesPage sp notes).pageCount = some 1) := by
  obtain ⟨h5, -⟩ := normalizePageSize_bounds hp
  have hpc : (notesPage sp notes).pageCount =
      some (max ⌈((notesPage sp notes).total : ℚ) / (p : ℚ)⌉ 1) := by
    rw [notesPage_pageCount, hp]
    rfl
  have hq1 : 1 ≤ p.toNat := by omega
  have hcast : ((p.toNat : ℕ) : ℚ) = (p : ℚ) := by
    have := Int.toNat_of_nonneg (by omega : (0 : ℤ) ≤ p)
    exact_mod_cast congrArg (fun z : ℤ => (z : ℚ)) this
  have hceil : ⌈((notesPage sp notes).total : ℚ) / (p : ℚ)⌉ =
      (((notesPage sp notes).total + p.toNat - 1) / p.toNat : ℕ) := by
    have h := ceil_natCast_div (notesPage sp notes).total p.toNat hq1
    rwa [hcast] at h
  constructor
  · rw [hpc, hceil]
    congr 1
    rw [Nat.ceilDiv_eq_add_pred_div, Nat.cast_max]
    simp
  · intro h0
    rw [hpc, h0]
    simp

/-- C5 witness: the empty listing with the default page size reports
page count 1. -/
theorem pageCount_formula_witness :
    normalizePageSize (none : Option String) = some 20 ∧
    (((notesPage {} ([] : List Note)).pageCount =
        some (((max ((notesPage {} ([] : List Note)).total ⌈/⌉ (20 : ℤ).toNat) 1 : ℕ) : ℤ))) ∧
      ((notesPage {} ([] : List Note)).total = 0 →
        (notesPage {} ([] : List Note)).pageCount = some 1)) :=
  ⟨rfl, pageCount_formula {} [] 20 rfl⟩

/-- C7: when the trimmed query has length at least 2 (so the search
predicate is active) and the note is not excluded by the archive or
category guards, the note is in the filtered set exactly when its
lowercased title or content contains the lowercased query as a
contiguous substring. -/
theorem search_predicate_substring_iff (sp : SearchParams) (notes : List Note) (n : Note)
    (hq : 2 ≤ (jsTrim (searchQueryOf sp.q)).length)
    (ha : n.isArchived = true → includeArchivedOf sp.includeArchived = true)
    (hc : ∀ c, categoryIdOf sp.category = some c → n.categoryId = some c) :
    (n ∈ filteredNotes sp notes ↔
      n ∈ notes ∧
        ((toLowerJS (searchQueryOf sp.q)).data <:+: (toLowerJS n.title).data ∨
          (toLowerJS (searchQueryOf sp.q)).data <:+: (toLowerJS n.content).data)) := by
  have hlen : 2 ≤ (searchQueryOf sp.q).length := le_trans hq (jsTrim_length_le _)
  have h1 : (!includeArchivedOf sp.includeArchived && n.isArchived) = false := by
    cases harch : n.isArchived
    · simp
    · simp [ha harch]
  have h2 : categoryExcludes (categoryIdOf sp.category) n = false := by
    cases hcid : categoryIdOf sp.category with
    | none => rfl
    | some c => simp [categoryExcludes, hc c hcid]
  unfold filteredNotes
  rw [List.mem_filter]
  apply and_congr_right
  intro _
  rw [noteMatchesFilter_eq_true]
  simp [h1, h2, hlen, jsIncludes_eq_true]

/-- C7 witness: the two-letter query "ab" against the sample note. -/
theorem search_predicate_substring_iff_witness :
    2 ≤ (jsTrim (searchQueryOf (some "ab"))).length ∧
    (sampleNote ∈ filteredNotes ⟨some "ab", none, none, none, none⟩ [sampleNote] ↔
      sampleNote ∈ [sampleNote] ∧
        ((toLowerJS (searchQueryOf (some "ab"))).data <:+: (toLowerJS sampleNote.title).data ∨
          (toLowerJS (searchQueryOf (some "ab"))).data <:+: (toLowerJS sampleNote.content).data)) :=
  ⟨by decide,
    search_predicate_substring_iff ⟨some "ab", none, none, none, none⟩ [sampleNote] sampleNote
      (by decide) (by decide) (fun _ h => Option.noConfusion h)⟩

/-- C9 counterexample: "toString" is not a palette key, yet the
property access walks the prototype chain and returns the inherited
truthy `Object.prototype.toString`, so `||` keeps it and the function
does not return the slate fallback string. -/
theorem getCategoryColor_toString_cex :
    ("toString" : String) ∉ colorMap.map Prod.fst ∧
    getCategoryColor "toString" ≠ JsValue.str "#64748b" := by
  constructor
  · decide
  · decide

/-- C9 (amended): the color lookup is total and never fails: each of
the ten palette names maps to its hex value; every other string that
is not a property name inherited from `Object.prototype` falls back to
the slate value; an inherited property name returns the inherited
truthy function or object itself instead of the fallback. -/
theorem getCategoryColor_total_palette :
    (∀ p ∈ colorMap, getCategoryColor p.1 = JsValue.str p.2) ∧
    (∀ s : String, s ∉ colorMap.map Prod.fst → s ∉ objectPrototypeProps →
      getCategoryColor s = JsValue.str "#64748b") ∧
    (∀ s ∈ objectPrototypeProps, getCategoryColor s = JsValue.inherited s) := by
  refine ⟨by decide, ?_, by decide⟩
  intro s hs hp
  have hget : colorMapGet s = JsValue.undefined := by
    unfold colorMapGet
    have hnone : colorMap.lookup s = none := by
      rw [List.lookup_eq_none_iff]
      intro p hpm
      have hne : s ≠ p.1 := fun he => hs (he ▸ List.mem_map_of_mem Prod.fst hpm)
      simpa using hne
    rw [hnone, if_neg hp]
  unfold getCategoryColor
  rw [hget]
  rfl

/-- C9 witness: an unlisted, uninherited color name falls back to
slate. -/
theorem getCategoryColor_total_palette_witness :
    ("teal" : String) ∉ colorMap.map Prod.fst ∧
    ("teal" : String) ∉ objectPrototypeProps ∧
    getCategoryColor "teal" = JsValue.str "#64748b" :=
  ⟨by decide, by decide,
    getCategoryColor_total_palette.2.1 "teal" (by decide) (by decide)⟩

/-- C10: for every page count at least 1 and current page within
range, the numeric entries of the page-number list are strictly
increasing and lie in `[1, pageCount]`; with more than 5 pages the
list begins with page 1 and ends with the last page, and with at most
5 pages it is exactly `1..pageCount`. -/
theorem getPageNumbers_invariants (currentPage pageCount : Nat)
    (h1 : 1 ≤ pageCount) (_h2 : 1 ≤ currentPage) (h3 : currentPage ≤ pageCount) :
    (pageNums (getPageNumbers currentPage pageCount)).Pairwise (· < ·) ∧
    (∀ m ∈ pageNums (getPageNumbers currentPage pageCount), 1 ≤ m ∧ m ≤ pageCount) ∧
    (5 < pageCount →
      (getPageNumbers currentPage pageCount).head? = some (PageItem.page 1) ∧
      (getPageNumbers currentPage pageCount).getLast? = some (PageItem.page pageCount)) ∧
    (pageCount ≤ 5 →
      getPageNumbers currentPage pageCount = (rangeIncl 1 pageCount).map PageItem.page) := by
  by_cases hpc : pageCount ≤ 5
  · have hgp : getPageNumbers currentPage pageCount =
        (rangeIncl 1 pageCount).map PageItem.page := by
      unfold getPageNumbers
      rw [if_pos hpc]
    refine ⟨?_, ?_, fun h5 => absurd h5 (by omega), fun _ => hgp⟩
    · rw [hgp, pageNums_map_page]
      exact pairwise_lt_rangeIncl 1 pageCount
    · intro m hm
      rw [hgp, pageNums_map_page] at hm
      exact mem_rangeIncl.mp hm
  · push_neg at hpc
    have hsle : 2 ≤ max 2 (currentPage - 1) := le_max_left _ _
    have hele : min (pageCount - 1) (currentPage + 1) ≤ pageCount - 1 := min_le_left _ _
    have hgp : getPageNumbers currentPage pageCount =
        [PageItem.page 1]
          ++ (if 3 < currentPage then [PageItem.ellipsis] else [])
          ++ (rangeIncl (max 2 (currentPage - 1))
                (min (pageCount - 1) (currentPage + 1))).map PageItem.page
          ++ (if currentPage < pageCount - 2 then [PageItem.ellipsis] else [])
          ++ [PageItem.page pageCount] := by
      unfold getPageNumbers
      rw [if_neg (by omega : ¬ pageCount ≤ 5)]
      have hmid : (rangeIncl (max 2 (currentPage - 1))
            (min (pageCount - 1) (currentPage + 1))).filter
            (fun i => i != 1 && i != pageCount) =
          rangeIncl (max 2 (currentPage - 1)) (min (pageCount - 1) (currentPage + 1)) := by
        rw [List.filter_eq_self]
        intro a ha
        have hb := mem_rangeIncl.mp ha
        have hne : a ≠ 1 ∧ a ≠ pageCount := by omega
        simp [hne.1, hne.2]
      rw [hmid, if_pos (by omega : 1 < pageCount)]
    have hnums : pageNums (getPageNumbers currentPage pageCount) =
        1 :: (rangeIncl (max 2 (currentPage - 1)) (min (pageCount - 1) (currentPage + 1))
          ++ [pageCount]) := by
      rw [hgp]
      rw [pageNums_append, pageNums_append, pageNums_append, pageNums_append]
      rw [pageNums_map_page, pageNums_single, pageNums_single]
      by_cases h4 : 3 < currentPage <;> by_cases h5 : currentPage < pageCount - 2 <;>
        simp [h4, h5, pageNums_ellipsis, pageNums_nil]
    refine ⟨?_, ?_, ?_, fun hle => absurd hle (by omega)⟩
    · rw [hnums]
      rw [List.pairwise_cons]
      constructor
      · intro m hm
        rcases List.mem_append.mp hm with hm | hm
        · have := mem_rangeIncl.mp hm
          omega
        · simp at hm
          omega
      · rw [List.pairwise_append]
        refine ⟨pairwise_lt_rangeIncl _ _, List.pairwise_singleton _ _, ?_⟩
        intro m hm m' hm'
        have := mem_rangeIncl.mp hm
        simp at hm'
        subst hm'
        omega
    · intro m hm
      rw [hnums] at hm
      rcases List.mem_cons.mp hm with rfl | hm
      · omega
      · rcases List.mem_append.mp hm with hm | hm
        · have := mem_rangeIncl.mp hm
          omega
        · simp at hm
          omega
    · intro _hgt
      refine ⟨?_, ?_⟩
      · rw [hgp]
        rfl
      · rw [hgp]
        exact List.getLast?_concat _

/-- C10 witness: the invariants instantiated at current page 3 of
10. -/
theorem getPageNumbers_invariants_witness :
    (1 ≤ 10 ∧ 1 ≤ 3 ∧ 3 ≤ 10) ∧
    ((pageNums (getPageNumbers 3 10)).Pairwise (· < ·) ∧
      (∀ m ∈ pageNums (getPageNumbers 3 10), 1 ≤ m ∧ m ≤ 10) ∧
      (5 < 10 →
        (getPageNumbers 3 10).head? = some (PageItem.page 1) ∧
        (getPageNumbers 3 10).getLast? = some (PageItem.page 10)) ∧
      (10 ≤ 5 → getPageNumbers 3 10 = (rangeIncl 1 10).map PageItem.page)) :=
  ⟨by decide, getPageNumbers_invariants 3 10 (by decide) (by decide) (by decide)⟩
